import Mathlib

/-!
Verification development for the BFD data-extraction server.

The definitions below are a shallow embedding of the admission, partitioning
and reporting logic of the extraction endpoint (src/unnamed/part_000 and
src/endpoints/extract.js) and of the two-stage preload/open pipeline of
src/extract-data.js. Stateful pipeline code is embedded as a step relation on
an explicit state record whose transitions correspond to the synchronous
segments between await/callback boundaries of the JavaScript source.
-/

namespace BFD

/-! ## Admission: URL normalization (part_000 lines 125-142, extract.js lines 112-129) -/

/-- Character-list test mirroring JavaScript `String.prototype.endsWith`. -/
def endsWithL (l p : List Char) : Bool :=
  decide (p.length ≤ l.length) && decide (l.drop (l.length - p.length) = p)

/-- Replacement of the first occurrence of `pat` by `rep`, mirroring JavaScript
`String.prototype.replace` called with a plain string pattern (which replaces
only the first occurrence, not necessarily the occurrence at the end). -/
def replaceFirstL (l pat rep : List Char) : List Char :=
  match l with
  | [] => []
  | c :: rest =>
    if pat.isPrefixOf l then rep ++ l.drop pat.length
    else c :: replaceFirstL rest pat rep

def bfdSuffix : List Char := ".bfd".data

def thumbJpgSuffix : List Char := ".bfd_thumb.jpg".data

def thumbPngSuffix : List Char := ".bfd_thumb.png".data

/-- A normalized reference: the BFD URL plus the optional transparency hint
derived from a companion thumbnail name. -/
structure NormalizedRef where
  url : String
  isThumbTransparent : Option Bool
deriving DecidableEq, Repr

/-- Normalization of one raw reference string, from the `urls.map` callback:
a URL ending in `.bfd` is kept as-is with no hint; a URL matching the
anchored pattern `\.bfd_thumb\.(jpg|png)$` has the first occurrence of the
matched suffix replaced by `.bfd` and gets `isThumbTransparent = (ext == png)`;
anything else maps to `none` (removed by the subsequent `filter(Boolean)`). -/
def normalizeURL (s : String) : Option NormalizedRef :=
  if endsWithL s.data bfdSuffix then some { url := s, isThumbTransparent := none }
  else if endsWithL s.data thumbJpgSuffix then
    some { url := String.mk (replaceFirstL s.data thumbJpgSuffix bfdSuffix)
           isThumbTransparent := some false }
  else if endsWithL s.data thumbPngSuffix then
    some { url := String.mk (replaceFirstL s.data thumbPngSuffix bfdSuffix)
           isThumbTransparent := some true }
  else none

/-- Duplicate removal from `urls.filter((url, index) => urls.indexOf(url) === index)`:
an entry is kept exactly when its position equals the first index of its value.
Note this runs on the raw strings, before normalization. -/
def dedupFirst (urls : List String) : List String :=
  (urls.enum.filter (fun q => urls.indexOf q.2 = q.1)).map Prod.snd

/-- The admitted batch: deduplicate the raw URLs, then normalize, then drop
invalid entries (the `filter(Boolean)` step). -/
def processUrls (urls : List String) : List NormalizedRef :=
  (dedupFirst urls).filterMap normalizeURL

def maxChromeInstances : Nat := 3

def maxBatchSize : Nat := 75

/-- Result of the admission checks at the top of the part_000 request handler. -/
inductive AdmissionResult where
  | alreadyRunning (error : String)
  | tooLarge (error : String)
  | admitted (batch : List NormalizedRef)
deriving DecidableEq

/-- The admission logic of part_000 lines 105-142: the single-flight check runs
first, then the size check against `maxChromeInstances * maxBatchSize`, then
dedup/normalization. -/
def admitRequest (running : Bool) (urls : List String) : AdmissionResult :=
  if running then AdmissionResult.alreadyRunning "Already running, please wait."
  else if maxChromeInstances * maxBatchSize < urls.length then
    AdmissionResult.tooLarge
      ("Too many URLs. Limit = " ++ toString (maxChromeInstances * maxBatchSize))
  else AdmissionResult.admitted (processUrls urls)

/-! ## Batch partitioning (part_000 lines 147-165) -/

/-- `Math.ceil(urls.length / maxChromeInstances)`. -/
def batchSizeOf (n : Nat) : Nat := (n + (maxChromeInstances - 1)) / maxChromeInstances

/-- The sharding loop: for each instance index take
`urls.slice(index * batchSize, (index + 1) * batchSize)` and keep only
the non-empty slices. -/
def makeShards (urls : List NormalizedRef) : List (List NormalizedRef) :=
  ((List.range maxChromeInstances).map
      (fun i => (urls.drop (i * batchSizeOf urls.length)).take (batchSizeOf urls.length))).filter
    (fun s => !s.isEmpty)

/-! ## The preload/open pipeline of src/extract-data.js

One state of the pipeline records the contents of `queuedProjects`,
`loadingProjects`, `preloadedProjects`, the four outcome buckets, the
`isOpeningProject` flag, and the set of outstanding
`openProjectAndGenerateThumbnail` calls. Each transition of `Step` is one
synchronous segment of the JavaScript between asynchronous boundaries. -/

abbrev Err := String

/-- The data returned by `openProjectAndGenerateThumbnail` on success
(extract-data.js lines 414-423). -/
structure RenderResult where
  thumbURL : String
  projectWidth : Nat
  projectHeight : Nat
  text : String
  sectionID : String
  version : Nat
  sourceTemplateID : String
  transparencyMismatch : Bool
deriving DecidableEq, Repr

/-- One queued work item (extract-data.js line 61): the 1-based index used for
logging, the URL and the transparency hint. -/
structure Project where
  index : Nat
  url : String
  isThumbTransparent : Option Bool
deriving DecidableEq, Repr

/-- Prefetch concurrency limit (extract-data.js line 60). -/
def inParallel : Nat := 5

/-- `Math.round(blobSize / 1024)` from extract-data.js line 105. -/
def toKB (bytes : Nat) : Nat := (bytes + 512) / 1024

/-- The retrying fetch of extract-data.js lines 90-99: resolve with the first
attempt's blob size if it succeeds, otherwise report the second attempt's
outcome (its blob size on success, its error on failure). -/
def preloadFetch (firstTry secondTry : Except Err Nat) : Except Err Nat :=
  match firstTry with
  | Except.ok blobSize => Except.ok blobSize
  | Except.error _ => secondTry

structure PipelineState where
  queuedProjects : List Project
  loadingProjects : List Project
  preloadedProjects : List (Project × Nat)
  openingProject : List (Project × Nat)
  isOpeningProject : Bool
  missingProjects : List (Project × Err)
  fontSwapProjects : List (Project × Nat × List String)
  openedProjects : List (Project × Nat × RenderResult)
  unopenedProjects : List (Project × Nat × Err)
deriving DecidableEq

/-- One transition of the pipeline.

* `startPreload`: the synchronous prefix of `preloadNextURL` (lines 74-100) —
  guarded by a non-empty queue and fewer than `inParallel` loading items,
  it shifts the next project from the queue into `loadingProjects` and issues
  the fetch.
* `preloadOk` / `preloadFail`: the `.then` / `.catch` handlers
  (lines 101-121) — the settled retrying fetch moves the project from
  `loadingProjects` into `preloadedProjects` (with its size in KB) or into
  `missingProjects` (with the error).
* `startOpen`: the part of `openNextProject` past the `isOpeningProject`
  guard (lines 147-211) — only from a state with `isOpeningProject = false`,
  it shifts the first preloaded project out, sets the flag and issues the
  `openProjectAndGenerateThumbnail` call.
* `openErr` / `openFontSwap` / `openOk`: resumption after that call settles
  (lines 212-229) — the outstanding call is removed, the flag cleared, and
  the project routed to `unopenedProjects`, `fontSwapProjects` or
  `openedProjects`. -/
inductive Step : PipelineState → PipelineState → Prop where
  | startPreload (s : PipelineState) (p : Project) (rest : List Project)
      (hq : s.queuedProjects = p :: rest)
      (hload : s.loadingProjects.length < inParallel) :
      Step s { s with queuedProjects := rest, loadingProjects := s.loadingProjects ++ [p] }
  | preloadOk (s : PipelineState) (p : Project) (l1 l2 : List Project)
      (firstTry secondTry : Except Err Nat) (blobSize : Nat)
      (hl : s.loadingProjects = l1 ++ p :: l2)
      (hfetch : preloadFetch firstTry secondTry = Except.ok blobSize) :
      Step s { s with loadingProjects := l1 ++ l2,
                      preloadedProjects := s.preloadedProjects ++ [(p, toKB blobSize)] }
  | preloadFail (s : PipelineState) (p : Project) (l1 l2 : List Project)
      (firstTry secondTry : Except Err Nat) (e : Err)
      (hl : s.loadingProjects = l1 ++ p :: l2)
      (hfetch : preloadFetch firstTry secondTry = Except.error e) :
      Step s { s with loadingProjects := l1 ++ l2,
                      missingProjects := s.missingProjects ++ [(p, e)] }
  | startOpen (s : PipelineState) (p : Project) (sz : Nat) (rest : List (Project × Nat))
      (hidle : s.isOpeningProject = false)
      (hp : s.preloadedProjects = (p, sz) :: rest) :
      Step s { s with preloadedProjects := rest,
                      openingProject := s.openingProject ++ [(p, sz)],
                      isOpeningProject := true }
  | openErr (s : PipelineState) (p : Project) (sz : Nat) (e : Err)
      (o1 o2 : List (Project × Nat))
      (hr : s.openingProject = o1 ++ (p, sz) :: o2) :
      Step s { s with openingProject := o1 ++ o2, isOpeningProject := false,
                      unopenedProjects := s.unopenedProjects ++ [(p, sz, e)] }
  | openFontSwap (s : PipelineState) (p : Project) (sz : Nat) (fontsToSwap : List String)
      (o1 o2 : List (Project × Nat))
      (hr : s.openingProject = o1 ++ (p, sz) :: o2) :
      Step s { s with openingProject := o1 ++ o2, isOpeningProject := false,
                      fontSwapProjects := s.fontSwapProjects ++ [(p, sz, fontsToSwap)] }
  | openOk (s : PipelineState) (p : Project) (sz : Nat) (result : RenderResult)
      (o1 o2 : List (Project × Nat))
      (hr : s.openingProject = o1 ++ (p, sz) :: o2) :
      Step s { s with openingProject := o1 ++ o2, isOpeningProject := false,
                      openedProjects := s.openedProjects ++ [(p, sz, result)] }

/-- `urlsToProcess.map(({url, isThumbTransparent}, index) => ({index: index + 1, url, isThumbTransparent}))`
(extract-data.js line 61). -/
def mkProjects (urls : List NormalizedRef) : List Project :=
  urls.enum.map
    (fun q => { index := q.1 + 1, url := q.2.url, isThumbTransparent := q.2.isThumbTransparent })

/-- The state right after entering the promise body of extract-data.js. -/
def initState (urls : List NormalizedRef) : PipelineState :=
  { queuedProjects := mkProjects urls
    loadingProjects := []
    preloadedProjects := []
    openingProject := []
    isOpeningProject := false
    missingProjects := []
    fontSwapProjects := []
    openedProjects := []
    unopenedProjects := [] }

def Reachable (urls : List NormalizedRef) (s : PipelineState) : Prop :=
  Relation.ReflTransGen Step (initState urls) s

/-- The completion condition of extract-data.js line 151: `resolveQueue` runs
when `preloadedProjects`, `queuedProjects` and `loadingProjects` are all empty,
inside `openNextProject` past the `isOpeningProject` guard. -/
def Finished (s : PipelineState) : Prop :=
  s.preloadedProjects = [] ∧ s.queuedProjects = [] ∧ s.loadingProjects = [] ∧
  s.isOpeningProject = false

/-- Every project in the state, in any stage, counted with multiplicity. -/
def allItems (s : PipelineState) : List Project :=
  s.queuedProjects ++ s.loadingProjects ++ s.preloadedProjects.map Prod.fst ++
  s.openingProject.map Prod.fst ++ s.missingProjects.map Prod.fst ++
  s.fontSwapProjects.map Prod.fst ++ s.openedProjects.map Prod.fst ++
  s.unopenedProjects.map Prod.fst

/-- The serialization invariant of the open stage: the `isOpeningProject` flag
is an accurate mutex for the outstanding `openProjectAndGenerateThumbnail`
calls, of which there is at most one. -/
def RenderIdleInv (s : PipelineState) : Prop :=
  (s.isOpeningProject = false → s.openingProject = []) ∧ s.openingProject.length ≤ 1

/-- The projects that have made it past the preload stage. -/
def pastList (s : PipelineState) : List Project :=
  s.preloadedProjects.map Prod.fst ++ s.openingProject.map Prod.fst ++
  s.openedProjects.map Prod.fst ++ s.fontSwapProjects.map Prod.fst ++
  s.unopenedProjects.map Prod.fst

/-- The projects of the four outcome buckets. -/
def bucketProjects (s : PipelineState) : List Project :=
  s.missingProjects.map Prod.fst ++ s.fontSwapProjects.map Prod.fst ++
  s.openedProjects.map Prod.fst ++ s.unopenedProjects.map Prod.fst

/-! ## Response post-processing (part_000 lines 200-247) -/

/-- The combined results object assembled after `Promise.all` resolves. -/
structure BatchReport where
  result : String
  openedProjects : List (Project × Nat × RenderResult)
  missingProjects : List (Project × Err)
  fontSwapProjects : List (Project × Nat × List String)
  unopenedProjects : List (Project × Nat × Err)
deriving DecidableEq

/-- Collecting every font of every font-swap outcome (part_000 lines 227-230). -/
def collectFonts (r : BatchReport) : List String :=
  r.fontSwapProjects.flatMap (fun q => q.2.2)

/-- Collecting the thumb URL of every opened project whose transparency
mismatched (part_000 lines 236-243). -/
def collectMismatches (r : BatchReport) : List String :=
  (r.openedProjects.filter (fun q => q.2.2.transparencyMismatch)).map
    (fun q => q.2.2.thumbURL)

/-- How the tail of the request handler ends: either `reply.send(result)` is
reached, or an error thrown on the way (e.g. by `fs.appendFileSync`)
propagates out of the handler. -/
inductive EndpointOutcome where
  | sent (r : BatchReport)
  | thrown (e : Err)
deriving DecidableEq

/-- The CSV-writing tail of the handler (part_000 lines 225-246): the font log
is written when some fonts were collected, then the mismatch log when some
mismatches were collected, then the reply is sent. The `fs.appendFileSync`
calls are not wrapped in any try/catch, so a failing write aborts the
handler before `reply.send`. -/
def finalizeBatch (writeFonts writeTrans : Except Err Unit) (r : BatchReport) :
    EndpointOutcome :=
  match (if collectFonts r ≠ [] then writeFonts else Except.ok ()) with
  | Except.error e => EndpointOutcome.thrown e
  | Except.ok _ =>
    match (if collectMismatches r ≠ [] then writeTrans else Except.ok ()) with
    | Except.error e => EndpointOutcome.thrown e
    | Except.ok _ => EndpointOutcome.sent r

/-- What a whole request produces, seen from the client. -/
inductive RequestOutcome where
  | rejectedAlreadyRunning (error : String)
  | rejectedTooLarge (error : String)
  | responded (r : BatchReport)
  | thrown (e : Err)
deriving DecidableEq

/-- The whole part_000 request handler as a function of the admission flag and
the outcome of the extraction phase: rejections return before `isRunning` is
set (line 123); `isRunning = false` (line 247) runs only after a successful
`reply.send(result)`, so a rejection leaves the flag at its previous value
while an error thrown during extraction or log writing leaves it `true`.
The returned Bool is the value of `isRunning` after the handler finishes. -/
def handleRequest (running : Bool) (urls : List String)
    (extraction : List NormalizedRef → Except Err BatchReport)
    (writeFonts writeTrans : Except Err Unit) : RequestOutcome × Bool :=
  match admitRequest running urls with
  | AdmissionResult.alreadyRunning msg => (RequestOutcome.rejectedAlreadyRunning msg, running)
  | AdmissionResult.tooLarge msg => (RequestOutcome.rejectedTooLarge msg, running)
  | AdmissionResult.admitted batch =>
    match extraction batch with
    | Except.error e => (RequestOutcome.thrown e, true)
    | Except.ok r =>
      match finalizeBatch writeFonts writeTrans r with
      | EndpointOutcome.thrown e => (RequestOutcome.thrown e, true)
      | EndpointOutcome.sent r' => (RequestOutcome.responded r', false)

/-! ## Global deadline and forced termination (part_000 lines 167-221)

src/extract-data.js ignores its fourth argument, so the arming of the
handle is modelled from the spec; the disarming (part_000 line 181), the
timeout fan-out over `batchTerminations` (lines 188-192) and the summary
marking (lines 219-221) are from the source. -/

/-- The per-instance view of the termination handle and its session: how often
the session has been released, whether `forceTerminate.exit` is still armed,
and whether the force-terminate signal has been delivered. -/
structure InstanceRun where
  sessionReleases : Nat
  exitArmed : Bool
  forceTerminated : Bool
deriving DecidableEq

/-- Modelled from the spec: src/extract-data.js does not consume the
`forceTerminate` argument part_000 passes it; per §4.2/§9 the pipeline arms
the replaceable `exit` method at start with an action that terminates its
session. A started, still-running instance has an armed handle and a
not-yet-released session. -/
def startedInstance : InstanceRun :=
  { sessionReleases := 0, exitArmed := true, forceTerminated := false }

/-- `runBatch` after `extractData` resolves (part_000 lines 178-183): the
pipeline's normal completion released the session (extract-data.js lines
152-154 close the context and browser), and then the handle is disarmed:
`forceTerminate.exit = () => {}`. -/
def finishInstance (s : InstanceRun) : InstanceRun :=
  { sessionReleases := s.sessionReleases + 1, exitArmed := false,
    forceTerminated := s.forceTerminated }

/-- One `termination.exit()` call: an armed handle terminates the session and
delivers the force-terminate signal; a disarmed handle does nothing. -/
def fireExit (s : InstanceRun) : InstanceRun :=
  if s.exitArmed then
    { sessionReleases := s.sessionReleases + 1, exitArmed := s.exitArmed,
      forceTerminated := true }
  else s

/-- The timeout handler (part_000 lines 188-192):
`Object.values(batchTerminations).forEach(termination => termination.exit())`. -/
def onTimeout (runs : List InstanceRun) : List InstanceRun := runs.map fireExit

/-- The summary marking of part_000 lines 219-221:
`if (timedOut) result.result = 'Timed out. ' + result.result`. -/
def markTimedOut (timedOut : Bool) (result : String) : String :=
  if timedOut then "Timed out. " ++ result else result

/-! ## Concrete example data used by witnesses and counterexamples -/

/-- Ten distinct valid references. -/
def ex10 : List NormalizedRef :=
  [{ url := "a.bfd", isThumbTransparent := none },
   { url := "b.bfd", isThumbTransparent := none },
   { url := "c.bfd", isThumbTransparent := none },
   { url := "d.bfd", isThumbTransparent := none },
   { url := "e.bfd", isThumbTransparent := none },
   { url := "f.bfd", isThumbTransparent := none },
   { url := "g.bfd", isThumbTransparent := none },
   { url := "h.bfd", isThumbTransparent := none },
   { url := "i.bfd", isThumbTransparent := none },
   { url := "j.bfd", isThumbTransparent := none }]

def exBatch : List NormalizedRef := processUrls ["a.bfd"]

def exP : Project := { index := 1, url := "a.bfd", isThumbTransparent := none }

def exRes : RenderResult :=
  { thumbURL := "/thumbnails/a.bfd_thumb_v1.png", projectWidth := 720, projectHeight := 540,
    text := "hello", sectionID := "designer", version := 2, sourceTemplateID := "",
    transparencyMismatch := false }

def exS1 : PipelineState :=
  { queuedProjects := [], loadingProjects := [exP], preloadedProjects := [],
    openingProject := [], isOpeningProject := false, missingProjects := [],
    fontSwapProjects := [], openedProjects := [], unopenedProjects := [] }

def exS2 : PipelineState :=
  { queuedProjects := [], loadingProjects := [], preloadedProjects := [(exP, 2)],
    openingProject := [], isOpeningProject := false, missingProjects := [],
    fontSwapProjects := [], openedProjects := [], unopenedProjects := [] }

def exS3 : PipelineState :=
  { queuedProjects := [], loadingProjects := [], preloadedProjects := [],
    openingProject := [(exP, 2)], isOpeningProject := true, missingProjects := [],
    fontSwapProjects := [], openedProjects := [], unopenedProjects := [] }

def exS4 : PipelineState :=
  { queuedProjects := [], loadingProjects := [], preloadedProjects := [],
    openingProject := [], isOpeningProject := false, missingProjects := [],
    fontSwapProjects := [], openedProjects := [(exP, 2, exRes)], unopenedProjects := [] }

/-- A report containing one font-swap outcome, used to exhibit the behavior of
the log-writing tail when a write fails. -/
def exReport : BatchReport :=
  { result := "Generated thumbnails for 0 / 1 BFDs in 10.0s  using 1 Chrome instance(s)",
    openedProjects := [], missingProjects := [],
    fontSwapProjects := [(exP, 2, ["Helvetica Neue"])], unopenedProjects := [] }

end BFD

namespace BFD

/-! ## Helper lemmas about the pipeline step relation -/

/-- Each transition permutes the items of the state: nothing is created,
duplicated or dropped. -/
theorem step_allItems_perm {s s' : PipelineState} (h : Step s s') :
    (allItems s').Perm (allItems s) := by
  cases h <;>
    · rename_i hyp1 hyp2
      rw [List.perm_iff_count]
      intro a
      simp [allItems, *, List.count_append, List.count_cons]
      omega

theorem reachable_allItems_perm {urls : List NormalizedRef} {s : PipelineState}
    (h : Reachable urls s) : (allItems s).Perm (mkProjects urls) := by
  induction h with
  | refl => simp [allItems, initState]
  | tail _ hstep ih => exact (step_allItems_perm hstep).trans ih

theorem step_renderIdle {s s' : PipelineState} (h : Step s s') (hi : RenderIdleInv s) :
    RenderIdleInv s' := by
  obtain ⟨hempty, hlen⟩ := hi
  cases h with
  | startPreload p rest hq hload => exact ⟨hempty, hlen⟩
  | preloadOk p l1 l2 f1 f2 b hl hf => exact ⟨hempty, hlen⟩
  | preloadFail p l1 l2 f1 f2 e hl hf => exact ⟨hempty, hlen⟩
  | startOpen p sz rest hidle hp =>
    refine ⟨by intro hc; exact absurd hc (by simp), ?_⟩
    simp [hempty hidle]
  | openErr p sz e o1 o2 hr =>
    have hlen2 : o1.length + (o2.length + 1) ≤ 1 := by
      have := hlen; rw [hr] at this; simpa using this
    have ho1 : o1 = [] := List.length_eq_zero.mp (by omega)
    have ho2 : o2 = [] := List.length_eq_zero.mp (by omega)
    subst ho1; subst ho2
    exact ⟨fun _ => by simp, by simp⟩
  | openFontSwap p sz fonts o1 o2 hr =>
    have hlen2 : o1.length + (o2.length + 1) ≤ 1 := by
      have := hlen; rw [hr] at this; simpa using this
    have ho1 : o1 = [] := List.length_eq_zero.mp (by omega)
    have ho2 : o2 = [] := List.length_eq_zero.mp (by omega)
    subst ho1; subst ho2
    exact ⟨fun _ => by simp, by simp⟩
  | openOk p sz res o1 o2 hr =>
    have hlen2 : o1.length + (o2.length + 1) ≤ 1 := by
      have := hlen; rw [hr] at this; simpa using this
    have ho1 : o1 = [] := List.length_eq_zero.mp (by omega)
    have ho2 : o2 = [] := List.length_eq_zero.mp (by omega)
    subst ho1; subst ho2
    exact ⟨fun _ => by simp, by simp⟩

theorem reachable_renderIdle {urls : List NormalizedRef} {s : PipelineState}
    (h : Reachable urls s) : RenderIdleInv s := by
  induction h with
  | refl => exact ⟨fun _ => rfl, by simp [initState]⟩
  | tail _ hstep ih => exact step_renderIdle hstep ih

/-- Transitions never drop a project that has made it past the preload stage. -/
theorem step_pastList_count {s s' : PipelineState} (h : Step s s') (a : Project) :
    List.count a (pastList s) ≤ List.count a (pastList s') := by
  cases h <;>
    (rename_i hyp1 hyp2
     simp [pastList, *, List.count_append, List.count_cons]) <;>
    omega

theorem reach_pastList {s t : PipelineState} (h : Relation.ReflTransGen Step s t)
    (p : Project) (hp : p ∈ pastList s) : p ∈ pastList t := by
  induction h with
  | refl => exact hp
  | tail _ hstep ih =>
    have h1 : 0 < List.count p (pastList _) := List.count_pos_iff.mpr ih
    exact List.count_pos_iff.mp (lt_of_lt_of_le h1 (step_pastList_count hstep p))

theorem enum_nodup {α : Type _} (l : List α) : l.enum.Nodup := by
  apply List.Nodup.of_map Prod.fst
  rw [List.enum_map_fst]
  exact List.nodup_range _

theorem mkProjects_nodup (urls : List NormalizedRef) : (mkProjects urls).Nodup := by
  apply List.Nodup.map_on _ (enum_nodup urls)
  intro x _ y _ hxy
  simp [Project.mk.injEq] at hxy
  obtain ⟨h1, h2, h3⟩ := hxy
  obtain ⟨x1, x2⟩ := x
  obtain ⟨y1, y2⟩ := y
  obtain ⟨xu, xt⟩ := x2
  obtain ⟨yu, yt⟩ := y2
  simp at h1 h2 h3 ⊢
  exact ⟨h1, h2, h3⟩

theorem finished_allItems {s : PipelineState} (hdone : Finished s)
    (hopen : s.openingProject = []) : allItems s = bucketProjects s := by
  simp [allItems, bucketProjects, hdone.1, hdone.2.1, hdone.2.2.1, hopen]

/-- New entries of the `missingProjects` bucket come from `loadingProjects`. -/
theorem step_missing_src {s s' : PipelineState} (h : Step s s') (q : Project × Err)
    (hq : q ∈ s'.missingProjects) : q ∈ s.missingProjects ∨ q.1 ∈ s.loadingProjects := by
  cases h with
  | startPreload p rest hq' hload => exact Or.inl hq
  | preloadOk p l1 l2 f1 f2 b hl hf => exact Or.inl hq
  | preloadFail p l1 l2 f1 f2 e hl hf =>
    simp at hq
    rcases hq with hq | hq
    · exact Or.inl hq
    · right; rw [hl, hq]; simp
  | startOpen p sz rest hidle hp => exact Or.inl hq
  | openErr p sz e o1 o2 hr => exact Or.inl hq
  | openFontSwap p sz fonts o1 o2 hr => exact Or.inl hq
  | openOk p sz res o1 o2 hr => exact Or.inl hq

end BFD

namespace BFD

/-! ## Concrete pipeline run used by witnesses -/

theorem exStep1 : Step (initState exBatch) exS1 :=
  Step.startPreload (initState exBatch) exP [] (by decide) (by decide)

theorem exStep2 : Step exS1 exS2 :=
  Step.preloadOk exS1 exP [] [] (Except.error "socket hang up") (Except.ok 2048) 2048
    (by decide) rfl

theorem exStep3 : Step exS2 exS3 :=
  Step.startOpen exS2 exP 2 [] (by decide) (by decide)

theorem exStep4 : Step exS3 exS4 :=
  Step.openOk exS3 exP 2 exRes [] [] (by decide)

theorem exReach2 : Reachable exBatch exS2 :=
  Relation.ReflTransGen.tail (Relation.ReflTransGen.single exStep1) exStep2

theorem exReach3 : Reachable exBatch exS3 :=
  Relation.ReflTransGen.tail exReach2 exStep3

theorem exReach4 : Reachable exBatch exS4 :=
  Relation.ReflTransGen.tail exReach3 exStep4

theorem exCont24 : Relation.ReflTransGen Step exS2 exS4 :=
  Relation.ReflTransGen.tail (Relation.ReflTransGen.single exStep3) exStep4

/-- C1: for every input list run to completion, the four outcome buckets
partition the admitted work: the bucket sizes sum to the number of
normalized, deduplicated, structurally valid references, the bucket contents
are a permutation of the admitted work items, and no work item appears in
two buckets (the concatenation of the buckets has no duplicates). -/
theorem buckets_partition_admitted_work (rawUrls : List String) (s : PipelineState)
    (hreach : Reachable (processUrls rawUrls) s) (hdone : Finished s) :
    s.openedProjects.length + s.fontSwapProjects.length + s.missingProjects.length +
        s.unopenedProjects.length = (processUrls rawUrls).length ∧
      (bucketProjects s).Perm (mkProjects (processUrls rawUrls)) ∧
      (bucketProjects s).Nodup := by
  have hperm := reachable_allItems_perm hreach
  have hopen : s.openingProject = [] := (reachable_renderIdle hreach).1 hdone.2.2.2
  rw [finished_allItems hdone hopen] at hperm
  refine ⟨?_, hperm, hperm.nodup_iff.mpr (mkProjects_nodup _)⟩
  have hlen := hperm.length_eq
  simp [bucketProjects, mkProjects] at hlen
  omega

/-- Witness for C1: a concrete completed run over the admitted batch of
`["a.bfd"]`, with one opened project and the other buckets empty. -/
theorem buckets_partition_admitted_work_witness :
    exS4.openedProjects.length + exS4.fontSwapProjects.length + exS4.missingProjects.length +
        exS4.unopenedProjects.length = (processUrls ["a.bfd"]).length ∧
      (bucketProjects exS4).Perm (mkProjects (processUrls ["a.bfd"])) ∧
      (bucketProjects exS4).Nodup :=
  buckets_partition_admitted_work ["a.bfd"] exS4 exReach4 ⟨rfl, rfl, rfl, rfl⟩

/-- C5: retry semantics of the preload stage. A fetch whose first attempt
fails and whose second succeeds resolves successfully; the retrying fetch
reports an error only when both attempts failed, and then it is the second
attempt's error; a project can enter the Missing bucket only from the loading
stage; and a project that has been preloaded ends, in every completed
continuation of the run, in Opened, FontSwap or Unopened — never in
Missing. -/
theorem fetch_retry_once :
    (∀ (e1 : Err) (n : Nat), preloadFetch (Except.error e1) (Except.ok n) = Except.ok n) ∧
    (∀ (a1 a2 : Except Err Nat) (e : Err), preloadFetch a1 a2 = Except.error e →
      (∃ e1, a1 = Except.error e1) ∧ a2 = Except.error e) ∧
    (∀ (s s' : PipelineState) (q : Project × Err), Step s s' → q ∈ s'.missingProjects →
      q ∈ s.missingProjects ∨ q.1 ∈ s.loadingProjects) ∧
    (∀ (rawUrls : List String) (s t : PipelineState) (p : Project),
      Reachable (processUrls rawUrls) s → p ∈ s.preloadedProjects.map Prod.fst →
      Relation.ReflTransGen Step s t → Finished t →
      (p ∈ t.openedProjects.map Prod.fst ∨ p ∈ t.fontSwapProjects.map Prod.fst ∨
          p ∈ t.unopenedProjects.map Prod.fst) ∧ p ∉ t.missingProjects.map Prod.fst) := by
  refine ⟨fun e1 n => rfl, ?_, fun s s' q h hq => step_missing_src h q hq, ?_⟩
  · intro a1 a2 e hfetch
    cases a1 with
    | ok n => exact absurd hfetch (by simp [preloadFetch])
    | error e1 => exact ⟨⟨e1, rfl⟩, hfetch⟩
  · intro rawUrls s t p hreach hpre hcont hdone
    have hreacht : Reachable (processUrls rawUrls) t := hreach.trans hcont
    have hpast : p ∈ pastList t := by
      refine reach_pastList hcont p ?_
      unfold pastList
      exact List.mem_append.mpr (Or.inl (List.mem_append.mpr (Or.inl (List.mem_append.mpr
        (Or.inl (List.mem_append.mpr (Or.inl hpre)))))))
    have hopen : t.openingProject = [] := (reachable_renderIdle hreacht).1 hdone.2.2.2
    have hmem : p ∈ t.openedProjects.map Prod.fst ∨ p ∈ t.fontSwapProjects.map Prod.fst ∨
        p ∈ t.unopenedProjects.map Prod.fst := by
      simp only [pastList, hdone.1, hopen, List.map_nil, List.nil_append] at hpast
      rcases List.mem_append.mp hpast with h | h
      · rcases List.mem_append.mp h with h' | h'
        · exact Or.inl h'
        · exact Or.inr (Or.inl h')
      · exact Or.inr (Or.inr h)
    refine ⟨hmem, ?_⟩
    have hperm := reachable_allItems_perm hreacht
    rw [finished_allItems hdone hopen] at hperm
    have hnd : (bucketProjects t).Nodup := hperm.nodup_iff.mpr (mkProjects_nodup _)
    unfold bucketProjects at hnd
    rw [List.append_assoc, List.append_assoc] at hnd
    have hdisj := List.disjoint_of_nodup_append hnd
    intro hmiss
    apply hdisj hmiss
    rcases hmem with h | h | h
    · exact List.mem_append.mpr (Or.inr (List.mem_append.mpr (Or.inl h)))
    · exact List.mem_append.mpr (Or.inl h)
    · exact List.mem_append.mpr (Or.inr (List.mem_append.mpr (Or.inr h)))

/-- Witness for C5: in the concrete run the fetch of the only project failed
once and succeeded on retry, and the project ends in the Opened bucket, not
in Missing. -/
theorem fetch_retry_once_witness :
    preloadFetch (Except.error "socket hang up") (Except.ok 2048) = Except.ok 2048 ∧
      ((exP ∈ exS4.openedProjects.map Prod.fst ∨ exP ∈ exS4.fontSwapProjects.map Prod.fst ∨
          exP ∈ exS4.unopenedProjects.map Prod.fst) ∧
        exP ∉ exS4.missingProjects.map Prod.fst) :=
  ⟨fetch_retry_once.1 "socket hang up" 2048,
   fetch_retry_once.2.2.2 ["a.bfd"] exS2 exS4 exP exReach2 (by decide) exCont24 ⟨rfl, rfl, rfl, rfl⟩⟩

/-- C6: render-stage serialization. In every reachable pipeline state there is
at most one outstanding `openProjectAndGenerateThumbnail` call, the
`isOpeningProject` flag being `false` means none is outstanding, and any
transition that issues a new call starts from a state with no outstanding
call. -/
theorem render_stage_serialized (urls : List NormalizedRef) (s : PipelineState)
    (hreach : Reachable urls s) :
    s.openingProject.length ≤ 1 ∧
      (s.isOpeningProject = false → s.openingProject = []) ∧
      (∀ s' : PipelineState, Step s s' →
        s.openingProject.length < s'.openingProject.length → s.openingProject = []) := by
  refine ⟨(reachable_renderIdle hreach).2, (reachable_renderIdle hreach).1, ?_⟩
  intro s' hstep hlt
  cases hstep with
  | startPreload p rest hq hload => simp at hlt
  | preloadOk p l1 l2 f1 f2 b hl hf => simp at hlt
  | preloadFail p l1 l2 f1 f2 e hl hf => simp at hlt
  | startOpen p sz rest hidle hp => exact (reachable_renderIdle hreach).1 hidle
  | openErr p sz e o1 o2 hr => rw [hr] at hlt; simp at hlt
  | openFontSwap p sz fonts o1 o2 hr => rw [hr] at hlt; simp at hlt
  | openOk p sz res o1 o2 hr => rw [hr] at hlt; simp at hlt

/-- Witness for C6: the serialization invariant at the concrete reachable
state with one outstanding render call. -/
theorem render_stage_serialized_witness :
    exS3.openingProject.length ≤ 1 ∧
      (exS3.isOpeningProject = false → exS3.openingProject = []) ∧
      (∀ s' : PipelineState, Step exS3 s' →
        exS3.openingProject.length < s'.openingProject.length → exS3.openingProject = []) :=
  render_stage_serialized exBatch exS3 exReach3

end BFD

namespace BFD

/-! ## Sharding lemmas (C2) -/

theorem flatten_slices {α : Type _} (b K : Nat) (l : List α) :
    (((List.range K).map (fun i => (l.drop (i * b)).take b)).flatten) = l.take (K * b) := by
  induction K with
  | zero => simp
  | succ k ih =>
    rw [List.range_succ, List.map_append, List.flatten_append]
    simp only [List.map_cons, List.map_nil, List.flatten_cons, List.flatten_nil,
      List.append_nil]
    rw [ih, Nat.succ_mul, List.take_add]

theorem flatten_filter_ne_nil {α : Type _} (L : List (List α)) :
    (L.filter (fun s => !s.isEmpty)).flatten = L.flatten := by
  induction L with
  | nil => rfl
  | cons h t ih =>
    cases h with
    | nil => simpa [List.filter_cons] using ih
    | cons a as => simp [List.filter_cons, ih]

theorem makeShards_flatten (l : List NormalizedRef) : (makeShards l).flatten = l := by
  unfold makeShards
  rw [flatten_filter_ne_nil, flatten_slices]
  apply List.take_of_length_le
  simp only [batchSizeOf, maxChromeInstances]
  omega

/-- C2 counterexample: 10 valid references with `maxInstances = 3` are split
into slices of size `ceil(10/3) = 4`, which yields shard sizes 4, 4 and 2 —
not the sizes 4, 3, 3 stated by the claim. -/
theorem shard_sizes_counterexample :
    (makeShards ex10).length = 3 ∧
      (makeShards ex10).map List.length = [4, 4, 2] ∧
      ¬ ((makeShards ex10).map List.length).Perm [4, 3, 3] := by decide

/-- C2 amended: the coordinator splits the admitted list in original order
into consecutive slices of size `ceil(N/K)` (the final non-empty slice may be
smaller), omits empty slices, and preserves every reference with no
duplication and no loss (the concatenation of the shards is the original
list); 10 valid references with `maxInstances = 3` yield 3 shards of sizes
4, 4, 2. -/
theorem makeShards_partition (l : List NormalizedRef) :
    (makeShards l).flatten = l ∧
      (∀ s, s ∈ makeShards l → s ≠ [] ∧ s.length ≤ batchSizeOf l.length) ∧
      (makeShards ex10).map List.length = [4, 4, 2] := by
  refine ⟨makeShards_flatten l, ?_, by decide⟩
  intro s hs
  unfold makeShards at hs
  rw [List.mem_filter] at hs
  obtain ⟨hmem, hne⟩ := hs
  constructor
  · simpa using hne
  · rw [List.mem_map] at hmem
    obtain ⟨i, _, hi⟩ := hmem
    rw [← hi]
    simp [List.length_take]

/-- Witness for C2 (amended): the partition facts evaluated on the concrete
10-element list. -/
theorem makeShards_partition_witness :
    (makeShards ex10).flatten = ex10 ∧ ex10.take 4 ≠ [] :=
  ⟨(makeShards_partition ex10).1,
   (((makeShards_partition ex10).2.1) (ex10.take 4) (by decide)).1⟩

end BFD

namespace BFD

/-! ## Deduplication lemmas (C3) -/

theorem dedupFirst_sublist (l : List String) : (dedupFirst l).Sublist l := by
  have h : ((l.enum.filter (fun q => l.indexOf q.2 = q.1)).map Prod.snd).Sublist
      (l.enum.map Prod.snd) := List.Sublist.map _ (List.filter_sublist _)
  rw [List.enum_map_snd] at h
  exact h

theorem dedupFirst_nodup (l : List String) : (dedupFirst l).Nodup := by
  apply List.Nodup.map_on
  · intro x hx y hy hxy
    rw [List.mem_filter] at hx hy
    have hx2 : l.indexOf x.2 = x.1 := by simpa using hx.2
    have hy2 : l.indexOf y.2 = y.1 := by simpa using hy.2
    have h1 : x.1 = y.1 := by rw [← hx2, ← hy2, hxy]
    exact Prod.ext h1 hxy
  · exact List.Nodup.filter _ (by
      apply List.Nodup.of_map Prod.fst
      rw [List.enum_map_fst]
      exact List.nodup_range _)

theorem dedupFirst_mem (l : List String) (a : String) : a ∈ dedupFirst l ↔ a ∈ l := by
  constructor
  · intro h
    exact (dedupFirst_sublist l).mem h
  · intro h
    have hlt : l.indexOf a < l.length := List.indexOf_lt_length.mpr h
    have hget : l.get ⟨l.indexOf a, hlt⟩ = a := List.indexOf_get hlt
    refine List.mem_map.mpr ⟨(l.indexOf a, a), ?_, rfl⟩
    rw [List.mem_filter]
    constructor
    · rw [List.mem_enum_iff_getElem?, List.getElem?_eq_getElem hlt]
      simp
    · simp

/-- C3 counterexample: deduplication runs on the raw strings before
normalization, so the two raw entries `foo.bfd` and `foo.bfd_thumb.jpg`,
which both normalize to the design reference `foo.bfd`, survive as two work
items, and the admitted batch contains a duplicate normalized identifier. -/
theorem dedup_by_normalized_counterexample :
    (processUrls ["foo.bfd", "foo.bfd_thumb.jpg"]).length = 2 ∧
      (processUrls ["foo.bfd", "foo.bfd_thumb.jpg"]).map NormalizedRef.url =
        ["foo.bfd", "foo.bfd"] ∧
      ¬ ((processUrls ["foo.bfd", "foo.bfd_thumb.jpg"]).map NormalizedRef.url).Nodup := by
  refine ⟨by decide, by decide, by decide⟩

/-- C3 amended: admission deduplicates by exact raw string, before
normalization, first occurrence wins, preserving original order: the
deduplicated list is a duplicate-free sublist of the input containing
exactly the input's values, and `[A, A, B]` yields a batch of size 2.
Two distinct raw strings that normalize to the same design reference are
not merged. -/
theorem dedup_raw_first_occurrence (l : List String) :
    (dedupFirst l).Sublist l ∧ (dedupFirst l).Nodup ∧
      (∀ a : String, a ∈ dedupFirst l ↔ a ∈ l) ∧
      (processUrls ["a.bfd", "a.bfd", "b.bfd"]).length = 2 :=
  ⟨dedupFirst_sublist l, dedupFirst_nodup l, dedupFirst_mem l, by decide⟩

/-- Witness for C3 (amended): membership transfer evaluated on a concrete
list with a duplicate. -/
theorem dedup_raw_first_occurrence_witness :
    "a.bfd" ∈ dedupFirst ["a.bfd", "a.bfd", "b.bfd"] ∧
      (dedupFirst ["a.bfd", "a.bfd", "b.bfd"]).Nodup :=
  ⟨((dedup_raw_first_occurrence ["a.bfd", "a.bfd", "b.bfd"]).2.2.1 "a.bfd").mpr (by decide),
   (dedup_raw_first_occurrence ["a.bfd", "a.bfd", "b.bfd"]).2.1⟩

/-! ## Normalization lemmas (C4) -/

theorem endsWithL_append (foo pat : List Char) : endsWithL (foo ++ pat) pat = true := by
  unfold endsWithL
  rw [Bool.and_eq_true, decide_eq_true_iff, decide_eq_true_iff]
  refine ⟨by simp, ?_⟩
  have h : (foo ++ pat).length - pat.length = foo.length := by simp
  rw [h, List.drop_left]

/-- A string obtained by appending a 14-character thumb suffix whose last four
characters differ from `.bfd` does not end in `.bfd`. -/
theorem endsWithL_bfd_of_append_thumb (foo pat : List Char) (hlen : pat.length = 14)
    (htail : pat.drop 10 ≠ bfdSuffix) : endsWithL (foo ++ pat) bfdSuffix = false := by
  rw [Bool.eq_false_iff]
  intro hc
  unfold endsWithL at hc
  rw [Bool.and_eq_true, decide_eq_true_iff, decide_eq_true_iff] at hc
  obtain ⟨hle, heq⟩ := hc
  have h1 : (foo ++ pat).length - bfdSuffix.length = foo.length + 10 := by
    have e2 : bfdSuffix.length = 4 := rfl
    rw [List.length_append, hlen, e2]
    omega
  rw [h1, List.drop_append 10] at heq
  exact htail heq

/-- If the pattern is non-empty and occurs nowhere strictly before the final
position, replacing its first occurrence replaces the suffix. -/
theorem replaceFirstL_append (foo pat rep : List Char) (hne : pat ≠ [])
    (h : ∀ i, i < foo.length → pat.isPrefixOf ((foo ++ pat).drop i) = false) :
    replaceFirstL (foo ++ pat) pat rep = foo ++ rep := by
  induction foo with
  | nil =>
    cases pat with
    | nil => exact absurd rfl hne
    | cons c rest =>
      simp only [List.nil_append]
      rw [replaceFirstL, if_pos]
      · simp
      · exact List.isPrefixOf_iff_prefix.mpr (List.prefix_refl _)
  | cons c foo' ih =>
    have h0 : pat.isPrefixOf (c :: (foo' ++ pat)) = false := by
      have := h 0 (by simp)
      simpa using this
    have ih2 : replaceFirstL (foo' ++ pat) pat rep = foo' ++ rep := by
      apply ih
      intro i hi
      have := h (i + 1) (by simp; omega)
      simpa [List.drop_succ_cons] using this
    rw [List.cons_append, replaceFirstL, if_neg (by simp [h0]), ih2]
    simp

/-- C4 counterexample: when the matched thumbnail suffix also occurs earlier
in the string, JavaScript `replace` rewrites the earlier occurrence, not the
suffix: the raw reference `a.bfd_thumb.pngx.bfd_thumb.png` (i.e.
`foo.bfd_thumb.png` with `foo = a.bfd_thumb.pngx`) normalizes to
`a.bfdx.bfd_thumb.png`, not to `foo.bfd = a.bfd_thumb.pngx.bfd`. -/
theorem normalize_counterexample :
    normalizeURL "a.bfd_thumb.pngx.bfd_thumb.png" =
        some { url := "a.bfdx.bfd_thumb.png", isThumbTransparent := some true } ∧
      "a.bfdx.bfd_thumb.png" ≠ "a.bfd_thumb.pngx" ++ ".bfd" := by
  decide

/-- C4 amended: normalization keeps a string ending in `.bfd` as-is with no
hint; rewrites a string ending in `.bfd_thumb.png` (resp. `.jpg`) by
replacing the first occurrence of that suffix string with `.bfd`, with
`expectedTransparency` true (resp. false) — which equals `foo.bfd` whenever
the suffix pattern does not also occur earlier in `foo.bfd_thumb.<ext>` —
and silently drops any other string. -/
theorem normalize_spec :
    (∀ s : String, endsWithL s.data bfdSuffix = true →
      normalizeURL s = some { url := s, isThumbTransparent := none }) ∧
    (∀ s : String, endsWithL s.data bfdSuffix = false →
      endsWithL s.data thumbJpgSuffix = true →
      normalizeURL s = some { url := String.mk (replaceFirstL s.data thumbJpgSuffix bfdSuffix)
                              isThumbTransparent := some false }) ∧
    (∀ s : String, endsWithL s.data bfdSuffix = false →
      endsWithL s.data thumbJpgSuffix = false →
      endsWithL s.data thumbPngSuffix = true →
      normalizeURL s = some { url := String.mk (replaceFirstL s.data thumbPngSuffix bfdSuffix)
                              isThumbTransparent := some true }) ∧
    (∀ s : String, endsWithL s.data bfdSuffix = false →
      endsWithL s.data thumbJpgSuffix = false →
      endsWithL s.data thumbPngSuffix = false → normalizeURL s = none) ∧
    (∀ foo : List Char,
      (∀ i, i < foo.length → thumbPngSuffix.isPrefixOf ((foo ++ thumbPngSuffix).drop i) = false) →
      normalizeURL (String.mk (foo ++ thumbPngSuffix)) =
        some { url := String.mk (foo ++ bfdSuffix), isThumbTransparent := some true }) ∧
    normalizeURL "foo.bfd_thumb.png" =
        some { url := "foo.bfd", isThumbTransparent := some true } ∧
    normalizeURL "foo.bfd_thumb.jpg" =
        some { url := "foo.bfd", isThumbTransparent := some false } ∧
    normalizeURL "foo.xyz" = none := by
  refine ⟨?_, ?_, ?_, ?_, ?_, by decide, by decide, by decide⟩
  · intro s h
    simp [normalizeURL, h]
  · intro s h1 h2
    simp [normalizeURL, h1, h2]
  · intro s h1 h2 h3
    simp [normalizeURL, h1, h2, h3]
  · intro s h1 h2 h3
    simp [normalizeURL, h1, h2, h3]
  · intro foo hocc
    have hdata : (String.mk (foo ++ thumbPngSuffix)).data = foo ++ thumbPngSuffix := rfl
    have hbfd : endsWithL (foo ++ thumbPngSuffix) bfdSuffix = false :=
      endsWithL_bfd_of_append_thumb foo thumbPngSuffix rfl (by decide)
    have hjpg : endsWithL (foo ++ thumbPngSuffix) thumbJpgSuffix = false := by
      rw [Bool.eq_false_iff]
      intro hc
      unfold endsWithL at hc
      rw [Bool.and_eq_true, decide_eq_true_iff, decide_eq_true_iff] at hc
      obtain ⟨hle, heq⟩ := hc
      have h1 : (foo ++ thumbPngSuffix).length - thumbJpgSuffix.length = foo.length + 0 := by
        have e1 : thumbPngSuffix.length = 14 := rfl
        have e2 : thumbJpgSuffix.length = 14 := rfl
        rw [List.length_append, e1, e2]
        omega
      rw [h1, List.drop_append 0] at heq
      have : thumbPngSuffix = thumbJpgSuffix := by simpa using heq
      exact absurd this (by decide)
    have hpng : endsWithL (foo ++ thumbPngSuffix) thumbPngSuffix = true :=
      endsWithL_append foo thumbPngSuffix
    rw [normalizeURL]
    rw [hdata, hbfd, hjpg, hpng]
    simp only [Bool.false_eq_true, if_false, if_true]
    rw [replaceFirstL_append foo thumbPngSuffix bfdSuffix (by decide) hocc]

/-- Witness for C4 (amended): the general suffix-rewriting clause evaluated at
the concrete string `x0.bfd_thumb.png`. -/
theorem normalize_spec_witness :
    normalizeURL (String.mk ("x0".data ++ thumbPngSuffix)) =
      some { url := String.mk ("x0".data ++ bfdSuffix), isThumbTransparent := some true } :=
  normalize_spec.2.2.2.2.1 "x0".data (by decide)

end BFD

namespace BFD

/-- C8: admission (with the single-flight gate clear) rejects with the
BatchTooLarge error — a distinct status carrying the human-readable reason
string — exactly when the raw reference count exceeds
`maxChromeInstances * maxBatchSize = 225`; a BatchTooLarge rejection is only
ever produced for counts above that bound, so any request at or below it
passes the size check. -/
theorem batch_too_large_iff :
    (∀ urls : List String,
      admitRequest false urls = AdmissionResult.tooLarge "Too many URLs. Limit = 225" ↔
        maxChromeInstances * maxBatchSize < urls.length) ∧
    (∀ (running : Bool) (urls : List String) (msg : String),
      admitRequest running urls = AdmissionResult.tooLarge msg →
        maxChromeInstances * maxBatchSize < urls.length) ∧
    maxChromeInstances * maxBatchSize = 225 := by
  refine ⟨?_, ?_, rfl⟩
  · intro urls
    constructor
    · intro h
      by_cases hlt : maxChromeInstances * maxBatchSize < urls.length
      · exact hlt
      · simp [admitRequest, hlt] at h
    · intro hlt
      simp only [admitRequest, if_neg Bool.false_ne_true, if_pos hlt]
      decide
  · intro running urls msg h
    cases running with
    | true => simp [admitRequest] at h
    | false =>
      by_cases hlt : maxChromeInstances * maxBatchSize < urls.length
      · exact hlt
      · simp [admitRequest, hlt] at h

/-- Witness for C8: a request of 226 references is rejected as too large. -/
theorem batch_too_large_iff_witness :
    admitRequest false (List.replicate 226 "x") =
      AdmissionResult.tooLarge "Too many URLs. Limit = 225" :=
  (batch_too_large_iff.1 (List.replicate 226 "x")).mpr
    (by rw [List.length_replicate]; norm_num [maxChromeInstances, maxBatchSize])

/-- C7: when the deadline fires, the timeout handler calls every handle's
`exit`: an armed handle (a still-running pipeline) has its session terminated
and receives the force-terminate signal, a disarmed handle (a pipeline that
finished before the deadline and already released its session) is a no-op, so
after the timeout every session has been released exactly once; and the batch
summary is prefixed with the timeout marker. -/
theorem timeout_force_terminate (runs : List InstanceRun) (result : String)
    (hruns : ∀ s, s ∈ runs → s = startedInstance ∨ s = finishInstance startedInstance) :
    (∀ s, s ∈ runs → s = startedInstance →
      fireExit s = { sessionReleases := 1, exitArmed := true, forceTerminated := true }) ∧
      (∀ s, s ∈ runs → s = finishInstance startedInstance → fireExit s = s) ∧
      (∀ s', s' ∈ onTimeout runs → s'.sessionReleases = 1) ∧
      markTimedOut true result = "Timed out. " ++ result := by
  refine ⟨?_, ?_, ?_, rfl⟩
  · intro s _ h
    subst h
    rfl
  · intro s _ h
    subst h
    rfl
  · intro s' hs'
    rcases List.mem_map.mp hs' with ⟨s, hs, rfl⟩
    rcases hruns s hs with h | h <;> subst h <;> rfl

/-- Witness for C7: a batch of one still-running and one finished instance. -/
theorem timeout_force_terminate_witness :
    fireExit startedInstance =
        { sessionReleases := 1, exitArmed := true, forceTerminated := true } ∧
      (fireExit (finishInstance startedInstance)).sessionReleases = 1 ∧
      markTimedOut true "done" = "Timed out. " ++ "done" := by
  have h := timeout_force_terminate [startedInstance, finishInstance startedInstance] "done"
    (by intro s hs; simpa using hs)
  refine ⟨h.1 startedInstance (by simp) rfl, ?_, h.2.2.2⟩
  exact h.2.2.1 (fireExit (finishInstance startedInstance)) (by simp [onTimeout])

/-- C9 counterexample: the `fs.appendFileSync` calls of the log-writing tail
are not guarded, so with a non-empty font list a failing font-log write
aborts the handler with that error and `reply.send(result)` is never
reached — the caller does not receive the structured report. -/
theorem log_write_failure_counterexample :
    finalizeBatch (Except.error "EACCES: permission denied") (Except.ok ()) exReport =
        EndpointOutcome.thrown "EACCES: permission denied" ∧
      finalizeBatch (Except.error "EACCES: permission denied") (Except.ok ()) exReport ≠
        EndpointOutcome.sent exReport := by
  refine ⟨by decide, by decide⟩

/-- C9 amended: the side-effect logs are not best-effort. A log write is
attempted only when its collected list is non-empty; when no write is
attempted or every attempted write succeeds the reply carrying the
structured report is sent, but a failing attempted write propagates its
error and the batch response is never sent. -/
theorem finalize_logs_behavior :
    (∀ (wf wt : Except Err Unit) (r : BatchReport), collectFonts r = [] →
      collectMismatches r = [] → finalizeBatch wf wt r = EndpointOutcome.sent r) ∧
    (∀ r : BatchReport,
      finalizeBatch (Except.ok ()) (Except.ok ()) r = EndpointOutcome.sent r) ∧
    (∀ (wt : Except Err Unit) (r : BatchReport) (e : Err), collectFonts r ≠ [] →
      finalizeBatch (Except.error e) wt r = EndpointOutcome.thrown e) ∧
    (∀ (wf : Except Err Unit) (r : BatchReport) (e : Err), collectMismatches r ≠ [] →
      (collectFonts r = [] ∨ wf = Except.ok ()) →
      finalizeBatch wf (Except.error e) r = EndpointOutcome.thrown e) := by
  refine ⟨?_, ?_, ?_, ?_⟩
  · intro wf wt r h1 h2
    simp [finalizeBatch, h1, h2]
  · intro r
    unfold finalizeBatch
    simp only [ite_self]
  · intro wt r e h
    simp [finalizeBatch, h]
  · intro wf r e hmis hwf
    rcases hwf with hwf | hwf
    · simp [finalizeBatch, hwf, hmis]
    · subst hwf
      simp [finalizeBatch, hmis]

/-- Witness for C9 (amended): a failing mismatch-log write on a report with a
non-empty mismatch list aborts the handler with that error. -/
theorem finalize_logs_behavior_witness :
    finalizeBatch (Except.ok ())
        (Except.error "ENOSPC: no space left on device")
        { result := "r", openedProjects := [(exP, 2,
            { exRes with transparencyMismatch := true })],
          missingProjects := [], fontSwapProjects := [], unopenedProjects := [] } =
      EndpointOutcome.thrown "ENOSPC: no space left on device" :=
  finalize_logs_behavior.2.2.2 (Except.ok ())
    { result := "r", openedProjects := [(exP, 2, { exRes with transparencyMismatch := true })],
      missingProjects := [], fontSwapProjects := [], unopenedProjects := [] }
    "ENOSPC: no space left on device" (by decide) (Or.inr rfl)

/-- C10 counterexample: `isRunning = false` is executed only after
`reply.send(result)` on the normal path; an error thrown during extraction
propagates out of the handler and leaves the process-wide flag set, so the
flag does not return to its pre-request value (false) and every subsequent
request is spuriously rejected as already running. -/
theorem isRunning_leak_counterexample :
    (handleRequest false ["a.bfd"] (fun _ => Except.error "browser crashed")
        (Except.ok ()) (Except.ok ())).2 = true ∧
      (handleRequest false ["a.bfd"] (fun _ => Except.error "browser crashed")
        (Except.ok ()) (Except.ok ())).1 = RequestOutcome.thrown "browser crashed" := by
  refine ⟨by decide, by decide⟩

/-- C10 amended: the flag is acquired only after the rejection checks, so both
rejection paths leave it at its pre-request value, and the normal completion
path (extraction succeeds and the log writes do not throw) resets it to
false; but a thrown error — during extraction or during log writing — leaves
the flag set to true instead of restoring its pre-request value. -/
theorem isRunning_release_paths :
    (∀ (urls : List String) (ex : List NormalizedRef → Except Err BatchReport)
        (wf wt : Except Err Unit),
      handleRequest true urls ex wf wt =
        (RequestOutcome.rejectedAlreadyRunning "Already running, please wait.", true)) ∧
    (∀ (urls : List String) (ex : List NormalizedRef → Except Err BatchReport)
        (wf wt : Except Err Unit), maxChromeInstances * maxBatchSize < urls.length →
      handleRequest false urls ex wf wt =
        (RequestOutcome.rejectedTooLarge
          ("Too many URLs. Limit = " ++ toString (maxChromeInstances * maxBatchSize)), false)) ∧
    (∀ (urls : List String) (ex : List NormalizedRef → Except Err BatchReport)
        (wf wt : Except Err Unit) (r : BatchReport),
      urls.length ≤ maxChromeInstances * maxBatchSize →
      ex (processUrls urls) = Except.ok r →
      finalizeBatch wf wt r = EndpointOutcome.sent r →
      handleRequest false urls ex wf wt = (RequestOutcome.responded r, false)) ∧
    (∀ (urls : List String) (ex : List NormalizedRef → Except Err BatchReport)
        (wf wt : Except Err Unit) (e : Err),
      urls.length ≤ maxChromeInstances * maxBatchSize →
      ex (processUrls urls) = Except.error e →
      handleRequest false urls ex wf wt = (RequestOutcome.thrown e, true)) ∧
    (∀ (urls : List String) (ex : List NormalizedRef → Except Err BatchReport)
        (wf wt : Except Err Unit) (r : BatchReport) (e : Err),
      urls.length ≤ maxChromeInstances * maxBatchSize →
      ex (processUrls urls) = Except.ok r →
      finalizeBatch wf wt r = EndpointOutcome.thrown e →
      handleRequest false urls ex wf wt = (RequestOutcome.thrown e, true)) := by
  refine ⟨?_, ?_, ?_, ?_, ?_⟩
  · intro urls ex wf wt
    simp [handleRequest, admitRequest]
  · intro urls ex wf wt hlt
    simp [handleRequest, admitRequest, hlt]
  · intro urls ex wf wt r hle hex hfin
    simp [handleRequest, admitRequest, Nat.not_lt.mpr hle, hex, hfin]
  · intro urls ex wf wt e hle hex
    simp [handleRequest, admitRequest, Nat.not_lt.mpr hle, hex]
  · intro urls ex wf wt r e hle hex hfin
    simp [handleRequest, admitRequest, Nat.not_lt.mpr hle, hex, hfin]

/-- Witness for C10 (amended): a normal completion resets the flag to false. -/
theorem isRunning_release_paths_witness :
    handleRequest false ["a.bfd"] (fun _ => Except.ok exReport)
        (Except.ok ()) (Except.ok ()) =
      (RequestOutcome.responded exReport, false) :=
  isRunning_release_paths.2.2.1 ["a.bfd"] (fun _ => Except.ok exReport)
    (Except.ok ()) (Except.ok ()) exReport (by decide) rfl (by decide)

end BFD
